import Mathlib

/-!
Verification of the resilient session controller and tool-use policy gate
of the hangout-and-vibe repository, via a shallow embedding of its Python
source (`agent.py`) into Lean.

Python strings are modelled as `List Char`; paths resolved by the operating
system are modelled as lists of path components, and `Path.resolve` is an
abstract parameter (the filesystem decides symlinks and the working
directory, so resolution is an oracle `List Char → Option AbsPath`).
-/

namespace Hangout

/-! ### Python text primitives -/

/-- ASCII whitespace as recognised by Python `str.strip` and regex `\s`. -/
def pyIsSpace (c : Char) : Bool :=
  c == ' ' || c == '\t' || c == '\n' || c == '\r' || c == '\x0b' || c == '\x0c'

/-- Python `str.strip()`: remove leading and trailing whitespace. -/
def pyStrip (s : List Char) : List Char :=
  ((s.dropWhile pyIsSpace).reverse.dropWhile pyIsSpace).reverse

/-- Python substring test `needle in hay` (contiguous occurrence). -/
def listContains (needle : List Char) : List Char → Bool
  | [] => needle.isEmpty
  | c :: t => needle.isPrefixOf (c :: t) || listContains needle t

/-! ### Policy gate (`pre_tool_use_hook` in `agent.py`)

An absolute, symlink-resolved filesystem path is a list of components
(`Path.parts` without the leading root). -/

abbrev AbsPath := List (List Char)

/-- Rendering of an absolute path the way Python prints a `PosixPath`
(used inside the denial reason f-string). -/
def renderAbs (d : AbsPath) : List Char :=
  '/' :: List.intercalate "/".data d

/-- Hook decision: the `permissionDecision` (and its reason) of the
`SyncHookJSONOutput` returned by `pre_tool_use_hook`. -/
inductive Decision
  | allow
  | deny (reason : List Char)
deriving DecidableEq

/-- The `tool_input` argument map: only the keys the hook reads. A missing
key is `none`. -/
structure ToolInput where
  file_path : Option (List Char)
  path : Option (List Char)
  command : Option (List Char)
deriving DecidableEq

/-- Python `tool_input.get("file_path") or tool_input.get("path", "")`:
`or` falls through on `None` and on the empty string. -/
def getPathArg (ti : ToolInput) : List Char :=
  match ti.file_path with
  | some s => if s.isEmpty then ti.path.getD [] else s
  | none => ti.path.getD []

/-- Matcher for the regex fragment `\d+(\.\d+)?` anchored to the whole
remaining input (an integer or decimal literal). -/
def decimalNum (r : List Char) : Bool :=
  !(r.takeWhile Char.isDigit).isEmpty &&
    (match r.dropWhile Char.isDigit with
     | [] => true
     | '.' :: fs => !fs.isEmpty && fs.all Char.isDigit
     | _ => false)

/-- Python `re.fullmatch(r"sleep\s+\d+(\.\d+)?", s)`: the literal keyword,
one or more whitespace characters, then an integer or decimal number. -/
def matchesSleepNum (s : List Char) : Bool :=
  "sleep".data.isPrefixOf s &&
    (!((s.drop 5).takeWhile pyIsSpace).isEmpty &&
      decimalNum ((s.drop 5).dropWhile pyIsSpace))

/-- Shallow embedding of `pre_tool_use_hook` (agent.py lines 39-135).
`resolve` is the filesystem oracle standing for `Path(path_str).resolve()`
(`none` models a raised exception), and `allowed_dir` is the already
resolved `DATA_DIR`. -/
def pre_tool_use_hook (resolve : List Char → Option AbsPath) (allowed_dir : AbsPath)
    (tool_name : List Char) (tool_input : ToolInput) : Decision :=
  if tool_name = "Read".data ∨ tool_name = "Write".data ∨ tool_name = "Glob".data then
    if (getPathArg tool_input).isEmpty then
      if tool_name = "Glob".data then Decision.allow
      else Decision.deny (tool_name ++ " requires a file path".data)
    else
      match resolve (getPathArg tool_input) with
      | none => Decision.deny ("Invalid path: ".data ++ getPathArg tool_input)
      | some requested_path =>
        if allowed_dir.isPrefixOf requested_path then Decision.allow
        else Decision.deny ("Access denied: path must be within ".data ++ renderAbs allowed_dir)
  else if tool_name = "Bash".data then
    if matchesSleepNum (pyStrip (tool_input.command.getD [])) then Decision.allow
    else Decision.deny "Only \x27sleep <number>\x27 commands are allowed".data
  else Decision.allow

/-- Modelled from the spec: the pattern the spec claims for shell commands,
`^sleep \d+(\.\d+)?$` with the keyword followed by exactly ONE space
(compare with `matchesSleepNum`, which embeds the source regex `\s+`). -/
def specSleepOneSpace (s : List Char) : Bool :=
  match s with
  | 's' :: 'l' :: 'e' :: 'e' :: 'p' :: ' ' :: r => decimalNum r
  | _ => false

/-- Declarative characterisation of the commands the source regex accepts:
the keyword, a nonempty run of whitespace, a nonempty run of digits, and
optionally a dot followed by a nonempty run of digits. -/
def SleepAllowlisted (s : List Char) : Prop :=
  ∃ ws ds tail, s = "sleep".data ++ ws ++ ds ++ tail
    ∧ ws ≠ [] ∧ (∀ c ∈ ws, pyIsSpace c = true)
    ∧ ds ≠ [] ∧ (∀ c ∈ ds, c.isDigit = true)
    ∧ (tail = [] ∨ ∃ fs, tail = '.' :: fs ∧ fs ≠ [] ∧ (∀ c ∈ fs, c.isDigit = true))

/-! ### Session store (`_load_session_id` / `_save_session_id`) -/

/-- Shallow embedding of `HangoutAgent._load_session_id`: the session file
contents are `none` when the file is absent. -/
def load_session_id (file : Option (List Char)) : Option (List Char) :=
  match file with
  | some contents =>
    if (pyStrip contents).isEmpty then none else some (pyStrip contents)
  | none => none

/-! ### Turn executor (`HangoutAgent._execute_query`)

The SDK event stream is modelled as a finite list of events.  A message is
one of the `isinstance` shapes `_execute_query` distinguishes; `timeout`
stands for `asyncio.wait_for` elapsing before the next message arrives. -/

/-- Content block of an `AssistantMessage` (only `TextBlock` matters to
`_execute_query`; tool-use and other blocks fall through the loop). -/
inductive Block
  | textBlock (text : List Char)
  | toolUseBlock
  | otherBlock
deriving DecidableEq

/-- A message from `receive_response`. -/
inductive Msg
  | assistantMessage (content : List Block)
  | resultMessage (session_id : List Char) (is_error : Bool)
  | otherMessage
deriving DecidableEq

/-- One step of the `while True` receive loop: either a message arrives or
the per-message inactivity timeout fires. -/
inductive QEvent
  | msg (m : Msg)
  | timeout
deriving DecidableEq

/-- Mutable fields of `HangoutAgent` that `_execute_query` touches, plus
the persisted session file. -/
structure AgentState where
  session_id : Option (List Char)
  session_file : Option (List Char)
  client_started : Bool
  query_in_progress : Bool
deriving DecidableEq

/-- Shallow embedding of `HangoutAgent._save_session_id`: write the file,
then update the in-memory field. -/
def save_session_id (st : AgentState) (sid : List Char) : AgentState :=
  { st with session_file := some sid, session_id := some sid }

/-- The `result` dict returned by `_execute_query`. -/
structure QueryResult where
  prompt_too_long : Bool
deriving DecidableEq

/-- Exceptions `_execute_query` can raise: the propagated
`asyncio.TimeoutError`, or the `RuntimeError` for a missing client. -/
inductive QueryErr
  | timeoutError
  | runtimeError
deriving DecidableEq

/-- Case-insensitive detection of the backend overflow marker:
`"prompt is too long" in block.text.lower()`. -/
def detectPromptTooLong (text : List Char) : Bool :=
  listContains "prompt is too long".data (text.map Char.toLower)

/-- The `for block in msg.content` scan over an assistant message, folding
the `prompt_too_long` flag. -/
def scanBlocks (blocks : List Block) (flag : Bool) : Bool :=
  blocks.foldl
    (fun f b =>
      match b with
      | Block.textBlock t => f || detectPromptTooLong t
      | _ => f)
    flag

/-- The receive loop of `_execute_query`: consume events until the
terminal `ResultMessage` (break), stream end (`StopAsyncIteration`,
break), or an inactivity timeout (exception propagates). -/
def execLoop : List QEvent → Bool → AgentState → Except QueryErr QueryResult × AgentState
  | [], flag, st => (Except.ok ⟨flag⟩, st)
  | QEvent.timeout :: _, _, st => (Except.error QueryErr.timeoutError, st)
  | QEvent.msg (Msg.resultMessage sid _) :: _, flag, st =>
      (Except.ok ⟨flag⟩, save_session_id st sid)
  | QEvent.msg (Msg.assistantMessage blocks) :: rest, flag, st =>
      execLoop rest (scanBlocks blocks flag) st
  | QEvent.msg Msg.otherMessage :: rest, flag, st => execLoop rest flag st

/-- Shallow embedding of `HangoutAgent._execute_query`: raise
`RuntimeError` when no client is started, otherwise set
`_query_in_progress`, run the receive loop, and clear the flag in the
`finally` block whatever the loop produced. -/
def execute_query (events : List QEvent) (st : AgentState) :
    Except QueryErr QueryResult × AgentState :=
  if st.client_started = false then (Except.error QueryErr.runtimeError, st)
  else
    ((execLoop events false { st with query_in_progress := true }).1,
     { (execLoop events false { st with query_in_progress := true }).2 with
        query_in_progress := false })

/-- Text fragments the receive loop actually observes: those of assistant
messages strictly before the first terminal result (or timeout). -/
def textsOf (blocks : List Block) : List (List Char) :=
  blocks.filterMap fun b =>
    match b with
    | Block.textBlock t => some t
    | _ => none

/-- Observed assistant text fragments of a stream, up to the first
terminal result event or inactivity timeout. -/
def observedTextFragments : List QEvent → List (List Char)
  | [] => []
  | QEvent.timeout :: _ => []
  | QEvent.msg (Msg.resultMessage _ _) :: _ => []
  | QEvent.msg (Msg.assistantMessage blocks) :: rest =>
      textsOf blocks ++ observedTextFragments rest
  | QEvent.msg Msg.otherMessage :: rest => observedTextFragments rest

/-- Session identifier of the first terminal result event reached before
any inactivity timeout, if one exists. -/
def firstResultSid : List QEvent → Option (List Char)
  | [] => none
  | QEvent.timeout :: _ => none
  | QEvent.msg (Msg.resultMessage sid _) :: _ => some sid
  | QEvent.msg (Msg.assistantMessage _) :: rest => firstResultSid rest
  | QEvent.msg Msg.otherMessage :: rest => firstResultSid rest

/-- True when no inactivity timeout occurs before the stream ends or
produces its first terminal result. -/
def cleanUntilResult : List QEvent → Bool
  | [] => true
  | QEvent.timeout :: _ => false
  | QEvent.msg (Msg.resultMessage _ _) :: _ => true
  | QEvent.msg (Msg.assistantMessage _) :: rest => cleanUntilResult rest
  | QEvent.msg Msg.otherMessage :: rest => cleanUntilResult rest

/-- Discriminator for terminal result events. -/
def isResultEvent : QEvent → Bool
  | QEvent.msg (Msg.resultMessage _ _) => true
  | _ => false

/-! ### Recovery chain (`HangoutAgent._run_query`)

`_run_query` is instrumented with a trace counting the side effects the
termination claim is about.  The behaviour of the backend is an oracle:
whether the n-th `_execute_query` reports overflow and whether the n-th
`compact()` succeeds. -/

/-- Backend behaviour oracle for the recovery chain. -/
structure RecoveryEnv where
  execOverflow : Nat → Bool
  compactOk : Nat → Bool

/-- Instrumentation trace of one `_run_query` call tree. -/
structure RecoveryTrace where
  execCount : Nat
  contextChecks : Nat
  compactCount : Nat
  restartCount : Nat
  gaveUp : Bool
deriving DecidableEq

/-- Initial (all-zero) trace. -/
def recovery0 : RecoveryTrace :=
  { execCount := 0, contextChecks := 0, compactCount := 0, restartCount := 0, gaveUp := false }

/-- Shallow embedding of `_run_query(prompt, _retried=True)`: execute once;
on overflow the `_retried` flag makes it give up immediately (no further
compaction, restart, or retry). -/
def run_query_retried (env : RecoveryEnv) (t : RecoveryTrace) : RecoveryTrace :=
  if env.execOverflow t.execCount
  then { t with execCount := t.execCount + 1, gaveUp := true }
  else { t with execCount := t.execCount + 1 }

/-- Shallow embedding of `_run_query(prompt)` (initial call,
`_retried=False`): execute; on overflow check the context size, attempt
one compaction, and either retry directly (compaction succeeded) or
restart the client and retry; the retry runs with `_retried=True`. -/
def run_query (env : RecoveryEnv) (t : RecoveryTrace) : RecoveryTrace :=
  if env.execOverflow t.execCount then
    if env.compactOk t.compactCount then
      run_query_retried env
        { t with execCount := t.execCount + 1, contextChecks := t.contextChecks + 1,
                 compactCount := t.compactCount + 1 }
    else
      run_query_retried env
        { t with execCount := t.execCount + 1, contextChecks := t.contextChecks + 1,
                 compactCount := t.compactCount + 1, restartCount := t.restartCount + 1 }
  else { t with execCount := t.execCount + 1 }

/-! ### Helper lemmas -/

/-- Boolean prefix check agrees with the `<+:` relation. -/
lemma prefixCheck_iff {l1 l2 : AbsPath} : l1.isPrefixOf l2 = true ↔ l1 <+: l2 :=
  List.isPrefixOf_iff_prefix

lemma getPathArg_isEmpty_false {ti : ToolInput} (h : getPathArg ti ≠ []) :
    (getPathArg ti).isEmpty = false := by
  cases hg : getPathArg ti with
  | nil => exact absurd hg h
  | cons a l => rfl

/-! ### C1: path-bearing actions are allowed exactly inside the data dir -/

/-- Claim C1: for a path-bearing action (`Read`, `Write`, `Glob`) whose
path argument resolves successfully, `pre_tool_use_hook` allows the action
if and only if the resolved path extends (or equals) the resolved
`DATA_DIR`; every resolution landing outside — by `..` traversal, by
symlink, or by an absolute path — is denied. -/
theorem c1_path_gate_allow_iff_inside
    (resolve : List Char → Option AbsPath) (d : AbsPath) (tn : List Char) (ti : ToolInput)
    (htn : tn = "Read".data ∨ tn = "Write".data ∨ tn = "Glob".data)
    (hne : getPathArg ti ≠ []) (p : AbsPath)
    (hres : resolve (getPathArg ti) = some p) :
    pre_tool_use_hook resolve d tn ti = Decision.allow ↔ d <+: p := by
  unfold pre_tool_use_hook
  rw [if_pos htn, getPathArg_isEmpty_false hne, if_neg (by decide)]
  simp only [hres]
  by_cases hp : d.isPrefixOf p = true
  · rw [if_pos hp]
    exact ⟨fun _ => prefixCheck_iff.mp hp, fun _ => rfl⟩
  · rw [if_neg hp]
    exact ⟨fun h => Decision.noConfusion h, fun h => absurd (prefixCheck_iff.mpr h) hp⟩

theorem c1_witness :
    pre_tool_use_hook (fun _ => some ["app".data, "data".data, "notes.md".data])
        ["app".data, "data".data] "Read".data ⟨some "/app/data/notes.md".data, none, none⟩
      = Decision.allow
    ↔ ["app".data, "data".data] <+: ["app".data, "data".data, "notes.md".data] :=
  c1_path_gate_allow_iff_inside _ _ _ _ (Or.inl rfl) (by decide) _ rfl

/-! ### C6: denial of a traversal path and the reason it carries -/

/-- Claim C6 as stated is false: the request for `../../etc/passwd` is
denied, but the denial reason is the f-string
`"Access denied: path must be within {allowed_dir}"`, which (for a data
directory such as `/app/data`) does not contain the word "sandbox". -/
theorem c6_reason_counterexample :
    pre_tool_use_hook
        (fun s => if s = "../../etc/passwd".data then some ["etc".data, "passwd".data] else none)
        ["app".data, "data".data] "Read".data ⟨some "../../etc/passwd".data, none, none⟩
      = Decision.deny "Access denied: path must be within /app/data".data
    ∧ listContains "sandbox".data "Access denied: path must be within /app/data".data = false :=
  ⟨rfl, rfl⟩

/-- Claim C6 amended: a path-bearing request whose argument resolves
outside the data directory is denied, and the denial reason delivered to
the backend names the allowed directory: it is exactly
`"Access denied: path must be within "` followed by the rendered resolved
`DATA_DIR` (not the literal word "sandbox"). -/
theorem c6_amended_denial_reason
    (resolve : List Char → Option AbsPath) (d : AbsPath) (tn : List Char) (ti : ToolInput)
    (htn : tn = "Read".data ∨ tn = "Write".data ∨ tn = "Glob".data)
    (hne : getPathArg ti ≠ []) (p : AbsPath)
    (hres : resolve (getPathArg ti) = some p) (hout : ¬ d <+: p) :
    pre_tool_use_hook resolve d tn ti
      = Decision.deny ("Access denied: path must be within ".data ++ renderAbs d) := by
  unfold pre_tool_use_hook
  rw [if_pos htn, getPathArg_isEmpty_false hne, if_neg (by decide)]
  simp only [hres]
  rw [if_neg (fun h => hout (prefixCheck_iff.mp h))]

theorem c6_amended_witness :
    pre_tool_use_hook
        (fun s => if s = "../../etc/passwd".data then some ["etc".data, "passwd".data] else none)
        ["app".data, "data".data] "Read".data ⟨some "../../etc/passwd".data, none, none⟩
      = Decision.deny ("Access denied: path must be within ".data
          ++ renderAbs ["app".data, "data".data]) :=
  c6_amended_denial_reason _ _ _ _ (Or.inl rfl) (by decide) _ rfl (by decide)

/-! ### C7: path-bearing actions with no path argument -/

/-- Claim C7: when no path argument is supplied (both keys absent or the
empty string), `Glob` is allowed (it defaults to the working root) while
`Read` and `Write` are denied with a reason reporting the missing path. -/
theorem c7_missing_path (resolve : List Char → Option AbsPath) (d : AbsPath)
    (ti : ToolInput) (h : getPathArg ti = []) :
    pre_tool_use_hook resolve d "Glob".data ti = Decision.allow
    ∧ pre_tool_use_hook resolve d "Read".data ti
        = Decision.deny "Read requires a file path".data
    ∧ pre_tool_use_hook resolve d "Write".data ti
        = Decision.deny "Write requires a file path".data := by
  have hemp : (getPathArg ti).isEmpty = true := by rw [h]; rfl
  refine ⟨?_, ?_, ?_⟩
  · unfold pre_tool_use_hook
    rw [if_pos (Or.inr (Or.inr rfl)), hemp, if_pos rfl, if_pos rfl]
  · unfold pre_tool_use_hook
    rw [if_pos (Or.inl rfl), hemp, if_pos rfl, if_neg (by decide)]
    rfl
  · unfold pre_tool_use_hook
    rw [if_pos (Or.inr (Or.inl rfl)), hemp, if_pos rfl, if_neg (by decide)]
    rfl

theorem c7_witness :
    pre_tool_use_hook (fun _ => none) [] "Glob".data ⟨none, none, none⟩ = Decision.allow
    ∧ pre_tool_use_hook (fun _ => none) [] "Read".data ⟨none, none, none⟩
        = Decision.deny "Read requires a file path".data
    ∧ pre_tool_use_hook (fun _ => none) [] "Write".data ⟨none, none, none⟩
        = Decision.deny "Write requires a file path".data :=
  c7_missing_path _ _ _ rfl

/-! ### C8: the session-store load never raises -/

/-- Claim C8: `_load_session_id` is total: an absent file yields `none`,
contents that strip to the empty string yield `none`, and any other
contents yield the stripped contents. -/
theorem c8_load_session_never_raises :
    load_session_id none = none
    ∧ (∀ c, pyStrip c = [] → load_session_id (some c) = none)
    ∧ (∀ c, pyStrip c ≠ [] → load_session_id (some c) = some (pyStrip c)) := by
  refine ⟨rfl, ?_, ?_⟩
  · intro c h
    simp [load_session_id, h]
  · intro c h
    have hemp : (pyStrip c).isEmpty = false := by
      cases hc : pyStrip c with
      | nil => exact absurd hc h
      | cons a l => rfl
    simp [load_session_id, hemp]

theorem c8_witness : load_session_id (some "  sess-123  ".data) = some "sess-123".data :=
  c8_load_session_never_raises.2.2 "  sess-123  ".data (by decide)

/-! ### C10: the in-flight flag is cleared on every completion -/

/-- Claim C10: whatever the stream does — clean terminal result, early
stream end, or an exception such as the inactivity timeout — once
`_execute_query` completes, `_query_in_progress` is `false` (the `finally`
block runs on every path). -/
theorem c10_query_flag_cleared (events : List QEvent) (st : AgentState)
    (h : st.client_started = true) :
    (execute_query events st).2.query_in_progress = false := by
  unfold execute_query
  rw [h, if_neg (by decide)]

theorem c10_witness :
    (execute_query [QEvent.timeout] ⟨none, none, true, false⟩).2.query_in_progress = false :=
  c10_query_flag_cleared [QEvent.timeout] ⟨none, none, true, false⟩ rfl

/-! ### Receive-loop lemmas -/

lemma scanBlocks_eq (blocks : List Block) : ∀ (flag : Bool),
    scanBlocks blocks flag = (flag || (textsOf blocks).any detectPromptTooLong) := by
  induction blocks with
  | nil => intro flag; simp [scanBlocks, textsOf]
  | cons b bt ih =>
    intro flag
    cases b with
    | textBlock t =>
      have h1 : scanBlocks (Block.textBlock t :: bt) flag
          = scanBlocks bt (flag || detectPromptTooLong t) := rfl
      rw [h1, ih]
      simp [textsOf, Bool.or_assoc]
    | toolUseBlock =>
      have h1 : scanBlocks (Block.toolUseBlock :: bt) flag = scanBlocks bt flag := rfl
      rw [h1, ih]
      simp [textsOf]
    | otherBlock =>
      have h1 : scanBlocks (Block.otherBlock :: bt) flag = scanBlocks bt flag := rfl
      rw [h1, ih]
      simp [textsOf]

lemma execLoop_state (events : List QEvent) : ∀ (flag : Bool) (st : AgentState),
    (execLoop events flag st).2 = (firstResultSid events).elim st (save_session_id st) := by
  induction events with
  | nil => intro flag st; rfl
  | cons e rest ih =>
    intro flag st
    cases e with
    | timeout => rfl
    | msg m =>
      cases m with
      | resultMessage sid iserr => rfl
      | assistantMessage blocks => exact ih (scanBlocks blocks flag) st
      | otherMessage => exact ih flag st

lemma execLoop_ok_flag (events : List QEvent) : ∀ (flag : Bool) (st : AgentState)
    (res : QueryResult), (execLoop events flag st).1 = Except.ok res →
    res.prompt_too_long = (flag || (observedTextFragments events).any detectPromptTooLong) := by
  induction events with
  | nil =>
    intro flag st res h
    injection h with h2
    rw [← h2]
    simp [observedTextFragments]
  | cons e rest ih =>
    intro flag st res h
    cases e with
    | timeout => exact Except.noConfusion h
    | msg m =>
      cases m with
      | resultMessage sid iserr =>
        injection h with h2
        rw [← h2]
        simp [observedTextFragments]
      | assistantMessage blocks =>
        have h2 := ih (scanBlocks blocks flag) st res h
        rw [h2, scanBlocks_eq]
        simp [observedTextFragments, Bool.or_assoc]
      | otherMessage => exact ih flag st res h

lemma execLoop_ok_of_clean (events : List QEvent) : ∀ (flag : Bool) (st : AgentState),
    cleanUntilResult events = true →
    ∃ res, (execLoop events flag st).1 = Except.ok res := by
  induction events with
  | nil => intro flag st _; exact ⟨⟨flag⟩, rfl⟩
  | cons e rest ih =>
    intro flag st hc
    cases e with
    | timeout => simp [cleanUntilResult] at hc
    | msg m =>
      cases m with
      | resultMessage sid iserr => exact ⟨⟨flag⟩, rfl⟩
      | assistantMessage blocks => exact ih _ st hc
      | otherMessage => exact ih _ st hc

lemma no_result_aux : ∀ (events : List QEvent),
    (∀ e ∈ events, isResultEvent e = false) → (∀ e ∈ events, e ≠ QEvent.timeout) →
    firstResultSid events = none ∧ cleanUntilResult events = true := by
  intro events
  induction events with
  | nil => intro _ _; exact ⟨rfl, rfl⟩
  | cons e rest ih =>
    intro h1 h2
    have ih2 := ih (fun x hx => h1 x (List.mem_cons_of_mem e hx))
      (fun x hx => h2 x (List.mem_cons_of_mem e hx))
    cases e with
    | timeout => exact absurd rfl (h2 QEvent.timeout (List.mem_cons_self _ _))
    | msg m =>
      cases m with
      | resultMessage sid iserr =>
        have hr := h1 _ (List.mem_cons_self _ _)
        simp [isResultEvent] at hr
      | assistantMessage blocks => exact ih2
      | otherMessage => exact ih2

lemma firstResultSid_append : ∀ (pre : List QEvent),
    (∀ e ∈ pre, isResultEvent e = false ∧ e ≠ QEvent.timeout) →
    ∀ (sid : List Char) (iserr : Bool) (post : List QEvent),
      firstResultSid (pre ++ QEvent.msg (Msg.resultMessage sid iserr) :: post) = some sid
      ∧ cleanUntilResult (pre ++ QEvent.msg (Msg.resultMessage sid iserr) :: post) = true := by
  intro pre
  induction pre with
  | nil => intro _ sid iserr post; exact ⟨rfl, rfl⟩
  | cons e rest ih =>
    intro h sid iserr post
    have ih2 := ih (fun x hx => h x (List.mem_cons_of_mem e hx)) sid iserr post
    obtain ⟨hres, hto⟩ := h e (List.mem_cons_self _ _)
    cases e with
    | timeout => exact absurd rfl hto
    | msg m =>
      cases m with
      | resultMessage s i => simp [isResultEvent] at hres
      | assistantMessage blocks => exact ih2
      | otherMessage => exact ih2

/-! ### C4: the overflow flag and exhaustive stream consumption -/

/-- Claim C4: when `_execute_query` returns an outcome, its
`prompt_too_long` flag is set exactly when some observed assistant text
fragment contains (case-insensitively) "prompt is too long"; and detection
does not short-circuit — the loop still reaches the first terminal result,
whose session identifier ends up in the agent state. -/
theorem c4_overflow_flag_iff (events : List QEvent) (st : AgentState)
    (hclient : st.client_started = true) (res : QueryResult)
    (hret : (execute_query events st).1 = Except.ok res) :
    (res.prompt_too_long = true ↔
      ∃ t ∈ observedTextFragments events, detectPromptTooLong t = true)
    ∧ (execute_query events st).2.session_id
        = (firstResultSid events).elim st.session_id some := by
  have hcf : ¬ (st.client_started = false) := by rw [hclient]; decide
  unfold execute_query at hret ⊢
  rw [if_neg hcf] at hret ⊢
  constructor
  · have hflag := execLoop_ok_flag events false { st with query_in_progress := true } res hret
    rw [hflag]
    simp [List.any_eq_true]
  · rw [execLoop_state events false { st with query_in_progress := true }]
    cases hf : firstResultSid events with
    | none => rfl
    | some sid => rfl

theorem c4_witness :
    (((⟨true⟩ : QueryResult).prompt_too_long = true ↔
      ∃ t ∈ observedTextFragments
        [QEvent.msg (Msg.assistantMessage [Block.textBlock "Error: Prompt is too long.".data]),
         QEvent.msg (Msg.resultMessage "sid-1".data false)],
        detectPromptTooLong t = true)
    ∧ (execute_query
        [QEvent.msg (Msg.assistantMessage [Block.textBlock "Error: Prompt is too long.".data]),
         QEvent.msg (Msg.resultMessage "sid-1".data false)]
        ⟨none, none, true, false⟩).2.session_id
        = (firstResultSid
            [QEvent.msg (Msg.assistantMessage [Block.textBlock "Error: Prompt is too long.".data]),
             QEvent.msg (Msg.resultMessage "sid-1".data false)]).elim
            (none : Option (List Char)) some) :=
  c4_overflow_flag_iff _ ⟨none, none, true, false⟩ rfl ⟨true⟩ rfl

/-! ### C5: a stream that ends with no terminal result leaves state alone -/

/-- Claim C5: when the stream ends (without an inactivity timeout) before
any terminal result event, `_execute_query` returns normally and neither
the in-memory `session_id` nor the persisted session file changes — the
final agent state differs from the initial one only by the cleared
in-flight flag. -/
theorem c5_incomplete_stream_no_update (events : List QEvent) (st : AgentState)
    (hclient : st.client_started = true)
    (hnores : ∀ e ∈ events, isResultEvent e = false)
    (hnoto : ∀ e ∈ events, e ≠ QEvent.timeout) :
    ∃ res : QueryResult,
      execute_query events st = (Except.ok res, { st with query_in_progress := false }) := by
  obtain ⟨hfr, hclean⟩ := no_result_aux events hnores hnoto
  obtain ⟨res, hres⟩ :=
    execLoop_ok_of_clean events false { st with query_in_progress := true } hclean
  refine ⟨res, ?_⟩
  have hcf : ¬ (st.client_started = false) := by rw [hclient]; decide
  have hst := execLoop_state events false { st with query_in_progress := true }
  rw [hfr] at hst
  unfold execute_query
  rw [if_neg hcf, hres, hst]
  rfl

theorem c5_witness :
    ∃ res : QueryResult,
      execute_query [QEvent.msg (Msg.assistantMessage [Block.textBlock "hi".data]),
          QEvent.msg Msg.otherMessage]
        ⟨some "old".data, some "old".data, true, false⟩
      = (Except.ok res, { (⟨some "old".data, some "old".data, true, false⟩ : AgentState) with
            query_in_progress := false }) :=
  c5_incomplete_stream_no_update _ _ rfl (by decide) (by decide)

/-! ### C9: the terminal result is persisted unconditionally -/

/-- Claim C9: whenever the receive loop reaches a terminal
`ResultMessage` — whatever its `is_error` flag and whatever overflow text
preceded it — `_execute_query` writes that message's session identifier to
both the session file and the in-memory field, and returns normally. -/
theorem c9_result_persisted_unconditionally (pre post : List QEvent) (sid : List Char)
    (iserr : Bool) (st : AgentState) (hclient : st.client_started = true)
    (hpre : ∀ e ∈ pre, isResultEvent e = false ∧ e ≠ QEvent.timeout) :
    (execute_query (pre ++ QEvent.msg (Msg.resultMessage sid iserr) :: post) st).2.session_id
      = some sid
    ∧ (execute_query (pre ++ QEvent.msg (Msg.resultMessage sid iserr) :: post) st).2.session_file
      = some sid
    ∧ ∃ res, (execute_query (pre ++ QEvent.msg (Msg.resultMessage sid iserr) :: post) st).1
      = Except.ok res := by
  obtain ⟨hfr, hclean⟩ := firstResultSid_append pre hpre sid iserr post
  have hcf : ¬ (st.client_started = false) := by rw [hclient]; decide
  obtain ⟨res, hres⟩ :=
    execLoop_ok_of_clean _ false { st with query_in_progress := true } hclean
  have hst := execLoop_state (pre ++ QEvent.msg (Msg.resultMessage sid iserr) :: post)
    false { st with query_in_progress := true }
  rw [hfr] at hst
  unfold execute_query
  rw [if_neg hcf]
  exact ⟨by rw [hst]; rfl, by rw [hst]; rfl, ⟨res, hres⟩⟩

theorem c9_witness :
    (execute_query
        ([QEvent.msg (Msg.assistantMessage [Block.textBlock "prompt is too long".data])]
          ++ QEvent.msg (Msg.resultMessage "sid-err".data true) :: [])
        ⟨none, none, true, false⟩).2.session_id = some "sid-err".data
    ∧ (execute_query
        ([QEvent.msg (Msg.assistantMessage [Block.textBlock "prompt is too long".data])]
          ++ QEvent.msg (Msg.resultMessage "sid-err".data true) :: [])
        ⟨none, none, true, false⟩).2.session_file = some "sid-err".data
    ∧ ∃ res, (execute_query
        ([QEvent.msg (Msg.assistantMessage [Block.textBlock "prompt is too long".data])]
          ++ QEvent.msg (Msg.resultMessage "sid-err".data true) :: [])
        ⟨none, none, true, false⟩).1 = Except.ok res :=
  c9_result_persisted_unconditionally _ _ _ true ⟨none, none, true, false⟩ rfl (by decide)

/-! ### C3: the recovery chain is bounded -/

/-- Claim C3: every `_run_query` call performs at most one compaction, at
most one client restart and at most one retry of the original prompt
(never more than two executions); in particular, when every execution
reports overflow and compaction always fails, it does exactly one
compaction and one restart and then gives up instead of looping. -/
theorem c3_recovery_bounded (env : RecoveryEnv) :
    ((run_query env recovery0).compactCount ≤ 1
      ∧ (run_query env recovery0).restartCount ≤ 1
      ∧ (run_query env recovery0).execCount ≤ 2)
    ∧ ((∀ n, env.execOverflow n = true) → (∀ n, env.compactOk n = false) →
        run_query env recovery0
          = { execCount := 2, contextChecks := 1, compactCount := 1,
              restartCount := 1, gaveUp := true }) := by
  constructor
  · by_cases h0 : env.execOverflow 0 = true <;> by_cases hc : env.compactOk 0 = true <;>
      by_cases h1 : env.execOverflow 1 = true <;>
      simp [run_query, run_query_retried, recovery0, h0, hc, h1]
  · intro hov hcmp
    simp [run_query, run_query_retried, recovery0, hov 0, hov 1, hcmp 0]

theorem c3_witness :
    run_query ⟨fun _ => true, fun _ => false⟩ recovery0
      = { execCount := 2, contextChecks := 1, compactCount := 1,
          restartCount := 1, gaveUp := true } :=
  (c3_recovery_bounded ⟨fun _ => true, fun _ => false⟩).2 (fun _ => rfl) (fun _ => rfl)

/-! ### Lemmas for the shell-command matcher -/

/-- Boolean prefix check on character lists agrees with `<+:`. -/
lemma prefixCheckChar_iff {l1 l2 : List Char} : l1.isPrefixOf l2 = true ↔ l1 <+: l2 :=
  List.isPrefixOf_iff_prefix

lemma digit_not_space {c : Char} (h : c.isDigit = true) : pyIsSpace c = false := by
  by_cases h1 : pyIsSpace c = true
  · exfalso
    unfold pyIsSpace at h1
    simp only [Bool.or_eq_true, beq_iff_eq, or_assoc] at h1
    rcases h1 with h1 | h1 | h1 | h1 | h1 | h1 <;> subst h1 <;> exact absurd h (by decide)
  · cases hc : pyIsSpace c with
    | false => rfl
    | true => exact absurd hc h1

lemma takeWhile_all_append {α : Type} (p : α → Bool) (xs ys : List α)
    (hxs : ∀ x ∈ xs, p x = true)
    (hys : ∀ y ∈ ys.head?, p y = false) :
    (xs ++ ys).takeWhile p = xs ∧ (xs ++ ys).dropWhile p = ys := by
  induction xs with
  | nil =>
    simp only [List.nil_append]
    cases ys with
    | nil => exact ⟨rfl, rfl⟩
    | cons y yt =>
      have hy : p y = false := hys y (by simp)
      rw [List.takeWhile_cons, List.dropWhile_cons, hy]
      exact ⟨by simp, by simp⟩
  | cons x xt ih =>
    have hx : p x = true := hxs x (by simp)
    have ih2 := ih (fun a ha => hxs a (by simp [ha]))
    rw [List.cons_append, List.takeWhile_cons, List.dropWhile_cons, hx, if_pos rfl, if_pos rfl]
    exact ⟨by rw [ih2.1], ih2.2⟩

lemma decimalNum_iff (r : List Char) :
    decimalNum r = true ↔
      ∃ ds tail, r = ds ++ tail ∧ ds ≠ [] ∧ (∀ c ∈ ds, c.isDigit = true)
        ∧ (tail = [] ∨ ∃ fs, tail = '.' :: fs ∧ fs ≠ [] ∧ (∀ c ∈ fs, c.isDigit = true)) := by
  constructor
  · intro h
    unfold decimalNum at h
    rw [Bool.and_eq_true] at h
    obtain ⟨hds, htail⟩ := h
    have hne : r.takeWhile Char.isDigit ≠ [] := by
      intro heq
      rw [heq] at hds
      simp at hds
    have hmem : ∀ c ∈ r.takeWhile Char.isDigit, c.isDigit = true :=
      fun c hc => List.mem_takeWhile_imp hc
    split at htail
    · rename_i heq
      exact ⟨r.takeWhile Char.isDigit, r.dropWhile Char.isDigit,
        (List.takeWhile_append_dropWhile Char.isDigit r).symm, hne, hmem, Or.inl heq⟩
    · rename_i fs heq
      rw [Bool.and_eq_true] at htail
      obtain ⟨h1, h2⟩ := htail
      have hfsne : fs ≠ [] := by
        intro hfs
        rw [hfs] at h1
        simp at h1
      exact ⟨r.takeWhile Char.isDigit, r.dropWhile Char.isDigit,
        (List.takeWhile_append_dropWhile Char.isDigit r).symm, hne, hmem,
        Or.inr ⟨fs, heq, hfsne, List.all_eq_true.mp h2⟩⟩
    · exact Bool.noConfusion htail
  · rintro ⟨ds, tail, rfl, hdsne, hdsall, htail⟩
    rcases htail with rfl | ⟨fs, rfl, hfsne, hfsall⟩
    · obtain ⟨htw, hdw⟩ := takeWhile_all_append Char.isDigit ds []
        hdsall (by intro y hy; simp at hy)
      unfold decimalNum
      rw [Bool.and_eq_true]
      refine ⟨?_, ?_⟩
      · rw [htw]
        cases ds with
        | nil => exact absurd rfl hdsne
        | cons d0 ds0 => rfl
      · rw [hdw]
    · obtain ⟨htw, hdw⟩ := takeWhile_all_append Char.isDigit ds ('.' :: fs)
        hdsall (by intro y hy; simp at hy; subst hy; decide)
      unfold decimalNum
      rw [Bool.and_eq_true]
      refine ⟨?_, ?_⟩
      · rw [htw]
        cases ds with
        | nil => exact absurd rfl hdsne
        | cons d0 ds0 => rfl
      · rw [hdw]
        show (!fs.isEmpty && fs.all Char.isDigit) = true
        rw [Bool.and_eq_true]
        refine ⟨?_, List.all_eq_true.mpr hfsall⟩
        cases fs with
        | nil => exact absurd rfl hfsne
        | cons f0 fs0 => rfl

lemma matchesSleep_iff (s : List Char) :
    matchesSleepNum s = true ↔ SleepAllowlisted s := by
  constructor
  · intro h
    unfold matchesSleepNum at h
    rw [Bool.and_eq_true, Bool.and_eq_true] at h
    obtain ⟨hpre, hws, hnum⟩ := h
    obtain ⟨t, ht⟩ := prefixCheckChar_iff.mp hpre
    have hdrop : s.drop 5 = t := by
      rw [← ht]
      exact List.drop_left' (by decide)
    rw [hdrop] at hws hnum
    have hwsne : t.takeWhile pyIsSpace ≠ [] := by
      intro heq
      rw [heq] at hws
      simp at hws
    have hwsmem : ∀ c ∈ t.takeWhile pyIsSpace, pyIsSpace c = true :=
      fun c hc => List.mem_takeWhile_imp hc
    obtain ⟨ds, tail, hteq, hdsne, hdsall, htail⟩ := (decimalNum_iff _).mp hnum
    refine ⟨t.takeWhile pyIsSpace, ds, tail, ?_, hwsne, hwsmem, hdsne, hdsall, htail⟩
    rw [← ht]
    conv_lhs => rw [← List.takeWhile_append_dropWhile pyIsSpace t]
    rw [hteq]
    simp [List.append_assoc]
  · rintro ⟨ws, ds, tail, rfl, hwsne, hwsall, hdsne, hdsall, htail⟩
    have hperm : "sleep".data ++ ws ++ ds ++ tail = "sleep".data ++ (ws ++ (ds ++ tail)) := by
      simp [List.append_assoc]
    have hyhead : ∀ y ∈ (ds ++ tail).head?, pyIsSpace y = false := by
      cases ds with
      | nil => exact absurd rfl hdsne
      | cons d0 ds0 =>
        intro y hy
        simp at hy
        subst hy
        exact digit_not_space (hdsall d0 (by simp))
    obtain ⟨htw, hdw⟩ := takeWhile_all_append pyIsSpace ws (ds ++ tail) hwsall hyhead
    unfold matchesSleepNum
    rw [Bool.and_eq_true, Bool.and_eq_true]
    have hdrop : ("sleep".data ++ ws ++ ds ++ tail).drop 5 = ws ++ (ds ++ tail) := by
      rw [hperm]
      exact List.drop_left' (by decide)
    refine ⟨?_, ?_, ?_⟩
    · exact prefixCheckChar_iff.mpr ⟨ws ++ (ds ++ tail), hperm.symm⟩
    · rw [hdrop, htw]
      cases ws with
      | nil => exact absurd rfl hwsne
      | cons w0 ws0 => rfl
    · rw [hdrop, hdw]
      exact (decimalNum_iff _).mpr ⟨ds, tail, rfl, hdsne, hdsall, htail⟩

/-! ### C2: the shell-command allowlist -/

/-- Claim C2 as stated is false: the source regex is
`sleep\s+\d+(\.\d+)?`, whose `\s+` accepts one or MORE whitespace
characters, while the claimed pattern `^sleep \d+(\.\d+)?$` demands
exactly one space.  The command `"sleep  30"` (two spaces) is allowed by
the hook but rejected by the claimed pattern. -/
theorem c2_shell_counterexample :
    pre_tool_use_hook (fun _ => none) [] "Bash".data ⟨none, none, some "sleep  30".data⟩
      = Decision.allow
    ∧ specSleepOneSpace (pyStrip "sleep  30".data) = false :=
  ⟨rfl, rfl⟩

/-- Claim C2 amended: the hook allows a shell command if and only if the
trimmed command is the literal lowercase keyword `sleep`, one or more
whitespace characters, then an integer or decimal number; everything else
(other commands, appended shell metacharacters, an uppercase keyword) is
denied. -/
theorem c2_shell_amended (resolve : List Char → Option AbsPath) (d : AbsPath)
    (ti : ToolInput) :
    pre_tool_use_hook resolve d "Bash".data ti = Decision.allow ↔
      SleepAllowlisted (pyStrip (ti.command.getD [])) := by
  unfold pre_tool_use_hook
  rw [if_neg (by decide), if_pos rfl]
  by_cases hm : matchesSleepNum (pyStrip (ti.command.getD [])) = true
  · rw [if_pos hm]
    exact ⟨fun _ => (matchesSleep_iff _).mp hm, fun _ => rfl⟩
  · rw [if_neg hm]
    exact ⟨fun h => Decision.noConfusion h, fun h => absurd ((matchesSleep_iff _).mpr h) hm⟩

end Hangout
